import Mathlib

/-!
# Shallow embedding of the tusd OSS storage adapter

This file embeds the two Go source files of the repository:

* `pkg/ossstore/OSSStore.go` — the resumable-upload adapter (`OSSStore`,
  `ossUpload`) driven by the tus upload-handling framework;
* the `ossService` / `OSSAPI` file — the object-storage port wrapping the
  Aliyun OSS SDK bucket.

The Aliyun SDK bucket itself is an external collaborator; its operations are
modelled from the port's documented contract (`OSSAPI` doc comments and
spec §4.1): read fails with not-found on a missing key, size is read from
object metadata, append asserts that the caller's offset equals the object's
current length and returns the *next append position*, delete removes a set
of keys in one call, put overwrites.  Transport failures of the backend are
modelled by a set of currently-failing keys in the bucket state.  Every
bucket primitive records the keys it was invoked with in an access log, so
that "which storage keys does an adapter operation address" is provable.

Go `(value, error)` returns are modelled as pairs with `Option Err`
(`none` = nil error); `io.Reader` payloads are byte lists (`List Nat`);
JSON (de)serialization of `handler.FileInfo` is modelled by storing the
record itself in the object (`ObjData.infoJson`), with unmarshalling of a
non-JSON object failing, which is faithful for the string-map metadata the
adapter round-trips.  Offsets are `Int` (Go `int64`; no quantity here
approaches overflow).
-/

set_option autoImplicit false

namespace OSSSpec

/-- Error values crossing the adapter/port boundary.  `missFilehash` is the
adapter's own `errors.New("miss filehash")`; the others are backend errors
surfaced by the port: `notFound` (key does not exist), `offsetConflict`
(append position does not match the object's current length),
`notAppendable` (append to an object created by overwrite-write),
`transport` (network/auth/service failure), `jsonUnmarshal`
(`json.Unmarshal` failure in `GetUpload`). -/
inductive Err where
  | missFilehash
  | notFound
  | offsetConflict
  | notAppendable
  | transport
  | jsonUnmarshal
deriving DecidableEq, Repr

/-- The fields of `handler.FileInfo` that the adapter reads or writes:
`ID`, `Size`, `Offset`, `MetaData` and `Storage` (both Go
`map[string]string`, modelled as association lists queried by key). -/
structure FileInfo where
  id : String
  size : Int
  offset : Int
  metaData : List (String × String)
  storage : List (String × String)
deriving DecidableEq, Repr

/-- Go map read `info.MetaData[k]` (the `v, ok :=` form). -/
def FileInfo.getMeta (info : FileInfo) (k : String) : Option String :=
  info.metaData.lookup k

/-- Content of one stored object: either the raw appended payload of a data
object, or the JSON-serialized `FileInfo` snapshot of a metadata object. -/
inductive ObjData where
  | bytes (bs : List Nat)
  | infoJson (fi : FileInfo)
deriving DecidableEq, Repr

/-- Byte length the backend reports for an object (`Content-Length`).  The
serialized length of a metadata object is never queried by the adapter and
is not modelled; only data objects are ever sized or appended to. -/
def ObjData.len : ObjData → Nat
  | .bytes bs => bs.length
  | .infoJson _ => 0

/-- State of the OSS bucket: the stored objects (association list from key
to content; later entries shadowed by earlier ones), the set of keys whose
backend calls currently fail with a transport error (environment model of
`BackendTransportError`), and the access log: every key each bucket
primitive was invoked with, most recent first. -/
structure BucketState where
  objects : List (String × ObjData)
  failing : List String
  log : List String
deriving DecidableEq, Repr

namespace Bucket

/-- `oss.Bucket.GetObject`: a reader over the whole object, or an error. -/
def GetObject (s : BucketState) (key : String) :
    Except Err ObjData × BucketState :=
  let s := { s with log := key :: s.log }
  if key ∈ s.failing then (.error .transport, s)
  else
    match s.objects.lookup key with
    | some d => (.ok d, s)
    | none => (.error .notFound, s)

/-- `oss.Bucket.GetObjectDetailedMeta`, restricted to the `Content-Length`
header the caller parses: the object's byte length, or an error. -/
def GetObjectDetailedMeta (s : BucketState) (key : String) :
    Except Err Nat × BucketState :=
  let s := { s with log := key :: s.log }
  if key ∈ s.failing then (.error .transport, s)
  else
    match s.objects.lookup key with
    | some d => (.ok d.len, s)
    | none => (.error .notFound, s)

/-- `oss.Bucket.DeleteObjects`: removes the given keys in one call; a
transport failure of any addressed key fails the whole call with no key
removed. -/
def DeleteObjects (s : BucketState) (keys : List String) :
    Option Err × BucketState :=
  let s := { s with log := keys ++ s.log }
  if keys.any (· ∈ s.failing) then (some .transport, s)
  else (none, { s with objects := s.objects.filter (fun p => ¬ p.1 ∈ keys) })

/-- `oss.Bucket.PutObject`: creates or fully overwrites the object. -/
def PutObject (s : BucketState) (key : String) (d : ObjData)
    (opts : List String) : Option Err × BucketState :=
  let s := { s with log := key :: s.log }
  if key ∈ s.failing then (some .transport, s)
  else (none, { s with objects := (key, d) :: s.objects })

/-- `oss.Bucket.AppendObject`: appends `r` at position `offset`, which must
equal the object's current length (0 for a new object, which the call then
creates); appending to an object written by `PutObject` is rejected.
Returns the next append position (`current length + length of r`). -/
def AppendObject (s : BucketState) (key : String) (r : List Nat)
    (offset : Int) (opts : List String) : (Int × Option Err) × BucketState :=
  let s := { s with log := key :: s.log }
  if key ∈ s.failing then ((0, some .transport), s)
  else
    match s.objects.lookup key with
    | none =>
        if offset = 0 then
          ((r.length, none),
           { s with objects := (key, ObjData.bytes r) :: s.objects })
        else ((0, some .offsetConflict), s)
    | some (.bytes bs) =>
        if offset = (bs.length : Int) then
          (((bs.length + r.length : Nat), none),
           { s with objects := (key, ObjData.bytes (bs ++ r)) :: s.objects })
        else ((0, some .offsetConflict), s)
    | some (.infoJson _) => ((0, some .notAppendable), s)

end Bucket

namespace ossService

/-- `ossService.ReadObject`: delegates to `bucket.GetObject`. -/
def ReadObject (s : BucketState) (objectKey : String) :
    Except Err ObjData × BucketState :=
  Bucket.GetObject s objectKey

/-- `ossService.GetObjectSize`: reads detailed metadata and parses
`Content-Length`; returns `(0, err)` on any failure. -/
def GetObjectSize (s : BucketState) (objectKey : String) :
    (Int × Option Err) × BucketState :=
  match Bucket.GetObjectDetailedMeta s objectKey with
  | (.error e, s') => ((0, some e), s')
  | (.ok length, s') => ((length, none), s')

/-- `ossService.DeleteObject`: delegates to `bucket.DeleteObjects` on the
variadic key list, discarding the result value. -/
def DeleteObject (s : BucketState) (objectKey : List String) :
    Option Err × BucketState :=
  match Bucket.DeleteObjects s objectKey with
  | (some e, s') => (some e, s')
  | (none, s') => (none, s')

/-- `ossService.WriteObject`: delegates to `bucket.PutObject`. -/
def WriteObject (s : BucketState) (objectKey : String) (r : ObjData)
    (opts : List String) : Option Err × BucketState :=
  Bucket.PutObject s objectKey r opts

/-- `ossService.AppendObject`: delegates to `bucket.AppendObject`,
returning `(0, err)` on error and `(n, nil)` on success. -/
def AppendObject (s : BucketState) (objectKey : String) (r : List Nat)
    (offset : Int) (opts : List String) : (Int × Option Err) × BucketState :=
  match Bucket.AppendObject s objectKey r offset opts with
  | ((_, some e), s') => ((0, some e), s')
  | ((n, none), s') => ((n, none), s')

end ossService

namespace OSSStore

/-- `OSSStore.binPath`: the data object's key is the upload id itself.
(The `store` receiver is unused by the Go body.) -/
def binPath (id : String) : String :=
  id

/-- `OSSStore.infoPath`: the metadata object's key is the id plus
`".info"`. -/
def infoPath (id : String) : String :=
  id ++ ".info"

end OSSStore

/-- `ossUpload`: the live upload handle, holding the cached `FileInfo`.
(The `store` back-pointer is represented by using the single concrete
`ossService` port directly.) -/
structure ossUpload where
  info : FileInfo
deriving DecidableEq, Repr

namespace OSSStore

/-- `OSSStore.NewUpload`: requires `MetaData["filehash"]`, makes it the id,
attaches the `Storage` locator, serializes the `FileInfo` and writes the
metadata object; fails with `miss filehash` if the attribute is absent and
propagates any write error. -/
def NewUpload (info : FileInfo) (s : BucketState) :
    Except Err ossUpload × BucketState :=
  match info.getMeta "filehash" with
  | none => (.error .missFilehash, s)
  | some filehash =>
      let info := { info with id := filehash }
      let info := { info with
        storage := [("Type", "ossstore"), ("Key", binPath info.id)] }
      let upload : ossUpload := ⟨info⟩
      match ossService.WriteObject s (infoPath info.id)
          (ObjData.infoJson info) [] with
      | (some e, s') => (.error e, s')
      | (none, s') => (.ok upload, s')

/-- `OSSStore.GetUpload`: reads and unmarshals the metadata object, then
measures the data object's size (error discarded: `offset, _ := ...`) and
overwrites the snapshot's offset with the measured value. -/
def GetUpload (id : String) (s : BucketState) :
    Except Err ossUpload × BucketState :=
  let binPath := OSSStore.binPath id
  let infoPath := OSSStore.infoPath id
  match ossService.ReadObject s infoPath with
  | (.error e, s₁) => (.error e, s₁)
  | (.ok (.bytes _), s₁) => (.error .jsonUnmarshal, s₁)
  | (.ok (.infoJson info), s₁) =>
      let ((offset, _), s₂) := ossService.GetObjectSize s₁ binPath
      (.ok ⟨{ info with offset := offset }⟩, s₂)

end OSSStore

namespace ossUpload

/-- `ossUpload.GetInfo`: returns the handle's cached `FileInfo`, nil
error. -/
def GetInfo (upload : ossUpload) : FileInfo × Option Err :=
  (upload.info, none)

/-- The `Content-Disposition` option value `WriteChunk` passes to the
append call, derived from the `filename` attribute (empty when absent). -/
def contentDisposition (upload : ossUpload) : String :=
  "attachment; filename=" ++ ((upload.info.getMeta "filename").getD "")

/-- Body of `func (upload ossUpload) WriteChunk`, executed on the value
receiver `upload` (a copy of the handle): appends at `offset` with the
content-disposition option; on error returns `(0, err)`; on success adds
the returned `n` to the copy's cached offset and returns `n`.  Yields the
result, the receiver copy's final state, and the bucket state. -/
def WriteChunkBody (upload : ossUpload) (offset : Int) (src : List Nat)
    (s : BucketState) : (Int × Option Err) × ossUpload × BucketState :=
  let binPath := OSSStore.binPath upload.info.id
  match ossService.AppendObject s binPath src offset
      [contentDisposition upload] with
  | ((_, some e), s') => ((0, some e), upload, s')
  | ((n, none), s') =>
      (((n, none)),
       { upload with info := { upload.info with
           offset := upload.info.offset + n } }, s')

/-- `ossUpload.WriteChunk` as invoked through the `*ossUpload` handle: the
method's receiver is a by-value copy, so the mutation of the copy's cached
offset inside the body is not visible on the handle afterwards — the
caller's handle is returned unchanged. -/
def WriteChunk (upload : ossUpload) (offset : Int) (src : List Nat)
    (s : BucketState) : (Int × Option Err) × ossUpload × BucketState :=
  match WriteChunkBody upload offset src s with
  | (res, _receiverCopy, s') => (res, upload, s')

/-- `ossUpload.GetReader`: a fresh read stream over the data object. -/
def GetReader (upload : ossUpload) (s : BucketState) :
    Except Err ObjData × BucketState :=
  ossService.ReadObject s (OSSStore.binPath upload.info.id)

/-- `ossUpload.Terminate`: deletes the metadata object and the data object
in one `DeleteObject` call, propagating its error. -/
def Terminate (upload : ossUpload) (s : BucketState) :
    Option Err × BucketState :=
  let id := upload.info.id
  match ossService.DeleteObject s
      [OSSStore.infoPath id, OSSStore.binPath id] with
  | (some e, s') => (some e, s')
  | (none, s') => (none, s')

/-- `ossUpload.ConcatUploads`: capability stub, returns nil. -/
def ConcatUploads (upload : ossUpload) (uploads : List ossUpload)
    (s : BucketState) : Option Err × BucketState :=
  (none, s)

/-- `ossUpload.DeclareLength`: capability stub, returns nil. -/
def DeclareLength (upload : ossUpload) (length : Int) (s : BucketState) :
    Option Err × BucketState :=
  (none, s)

/-- `ossUpload.FinishUpload`: capability stub, returns nil. -/
def FinishUpload (upload : ossUpload) (s : BucketState) :
    Option Err × BucketState :=
  (none, s)

end ossUpload

/-- Modelled from the spec (§9): the offset a resume must report,
`measuredOffset(id) = Size(dataKey) or 0` — the backend-measured size of
the data object, 0 when it does not exist.  Used to compare `GetUpload`'s
result against the spec's words. -/
def specMeasuredOffset (s : BucketState) (id : String) : Int :=
  match s.objects.lookup (OSSStore.binPath id) with
  | some d => d.len
  | none => 0

/-! ## Helper lemmas -/

/-- A data key never equals the metadata key derived from the same id. -/
theorem id_beq_id_append_info (id : String) : (id == id ++ ".info") = false := by
  simp only [beq_eq_false_iff_ne, ne_eq]
  intro h
  have hlen := congrArg String.length h
  rw [String.length_append] at hlen
  have hfive : (".info" : String).length = 5 := rfl
  omega

/-- Looking up a key that every filtered-in entry is guaranteed not to
carry yields nothing. -/
theorem lookup_filter_none (l : List (String × ObjData))
    (f : String × ObjData → Bool) (k : String)
    (hf : ∀ d, f (k, d) = false) :
    (l.filter f).lookup k = none := by
  induction l with
  | nil => rfl
  | cons p t ih =>
    rcases p with ⟨a, d⟩
    by_cases hk : a = k
    · subst hk
      simp [List.filter, hf d, ih]
    · have hne : (k == a) = false := by
        simp only [beq_eq_false_iff_ne, ne_eq]
        exact fun h => hk h.symm
      cases hfa : f (a, d) <;> simp [List.filter, hfa, List.lookup, hne, ih]

/-- A resume whose metadata key is reachable but absent fails with
`notFound`. -/
theorem getUpload_fst_notFound (id : String) (s : BucketState)
    (hfail : OSSStore.infoPath id ∉ s.failing)
    (hlook : s.objects.lookup (OSSStore.infoPath id) = none) :
    (OSSStore.GetUpload id s).1 = .error .notFound := by
  simp [OSSStore.GetUpload, ossService.ReadObject, Bucket.GetObject,
    hfail, hlook]

/-! ## Claim theorems -/

/-- C1: the claim says a successful `WriteChunk` returns the number of bytes
appended (the chunk length).  Evaluating the code on a data object already
holding the 5 bytes of "hello" and appending the 6-byte chunk " world" at
offset 5: the call succeeds but returns 11 — the backend's next append
position (`offset + len`), not the chunk length 6. -/
theorem C1_writeChunk_returns_next_position_not_chunk_length :
    ((ossUpload.WriteChunk ⟨⟨"abc", 11, 5, [("filehash", "abc")], []⟩⟩ 5
        [32, 119, 111, 114, 108, 100]
        ⟨[("abc", ObjData.bytes [104, 101, 108, 108, 111])], [], []⟩).1
      = (11, none)) ∧ (11 : Int) ≠ 6 :=
  ⟨rfl, by decide⟩

/-- C2: the claim says a successful `WriteChunk` advances the handle's
cached offset so a subsequent `GetInfo` reports the old offset plus the
returned count.  Evaluating the code: appending the 5-byte chunk "hello"
at offset 0 on a fresh handle succeeds returning 5, yet `GetInfo` on the
handle afterwards still reports offset 0 (the `upload.info.Offset += n`
happens on the method's by-value receiver copy), and 0 is not 0 + 5. -/
theorem C2_cached_offset_not_advanced_after_writeChunk :
    ((ossUpload.WriteChunk ⟨⟨"abc", 11, 0, [("filehash", "abc")], []⟩⟩ 0
        [104, 101, 108, 108, 111] ⟨[], [], []⟩).1 = (5, none)) ∧
    ((ossUpload.GetInfo
        (ossUpload.WriteChunk ⟨⟨"abc", 11, 0, [("filehash", "abc")], []⟩⟩ 0
          [104, 101, 108, 108, 111] ⟨[], [], []⟩).2.1).1.offset = 0) ∧
    (0 : Int) ≠ 0 + 5 :=
  ⟨rfl, rfl, by decide⟩

/-- C4: a `NewUpload` whose metadata lacks the `filehash` identity
attribute fails with the miss-filehash error and leaves the bucket state
completely unchanged — no backend call is made and no object is written. -/
theorem C4_newUpload_without_filehash_fails_without_writing
    (info : FileInfo) (s : BucketState)
    (h : info.getMeta "filehash" = none) :
    OSSStore.NewUpload info s = (.error .missFilehash, s) := by
  unfold OSSStore.NewUpload
  rw [h]

/-- C4 witness: concrete metadata without `filehash`. -/
theorem C4_witness :
    (FileInfo.getMeta ⟨"", 0, 0, [("filename", "f.txt")], []⟩ "filehash"
      = none) ∧
    OSSStore.NewUpload ⟨"", 0, 0, [("filename", "f.txt")], []⟩ ⟨[], [], []⟩
      = (.error .missFilehash, ⟨[], [], []⟩) :=
  ⟨rfl, C4_newUpload_without_filehash_fails_without_writing _ _ rfl⟩

/-- C7: when the backend append fails, `WriteChunk` returns value 0 with
the backend's error unmodified, and the caller's handle (in particular its
cached offset) is unchanged. -/
theorem C7_writeChunk_propagates_error_and_leaves_handle_unchanged
    (u : ossUpload) (offset : Int) (src : List Nat) (s : BucketState) (e : Err)
    (h : (ossService.AppendObject s (OSSStore.binPath u.info.id) src offset
        [ossUpload.contentDisposition u]).1.2 = some e) :
    (ossUpload.WriteChunk u offset src s).1 = (0, some e) ∧
    (ossUpload.WriteChunk u offset src s).2.1 = u := by
  unfold ossUpload.WriteChunk ossUpload.WriteChunkBody
  rcases hc : ossService.AppendObject s (OSSStore.binPath u.info.id) src offset
      [ossUpload.contentDisposition u] with ⟨⟨n, err⟩, s'⟩
  rw [hc] at h
  simp only at h
  subst h
  simp [hc]

/-- C7 witness: appending 2 bytes at offset 3 to a 5-byte data object is
rejected with an offset conflict, which `WriteChunk` passes through while
keeping the handle unchanged. -/
theorem C7_witness :
    ((ossService.AppendObject
        ⟨[("abc", ObjData.bytes [104, 101, 108, 108, 111])], [], []⟩
        (OSSStore.binPath (ossUpload.mk ⟨"abc", 11, 5, [], []⟩).info.id)
        [1, 2] 3
        [ossUpload.contentDisposition ⟨⟨"abc", 11, 5, [], []⟩⟩]).1.2
      = some Err.offsetConflict) ∧
    ((ossUpload.WriteChunk ⟨⟨"abc", 11, 5, [], []⟩⟩ 3 [1, 2]
        ⟨[("abc", ObjData.bytes [104, 101, 108, 108, 111])], [], []⟩).1
      = (0, some Err.offsetConflict)) ∧
    ((ossUpload.WriteChunk ⟨⟨"abc", 11, 5, [], []⟩⟩ 3 [1, 2]
        ⟨[("abc", ObjData.bytes [104, 101, 108, 108, 111])], [], []⟩).2.1
      = ⟨⟨"abc", 11, 5, [], []⟩⟩) := by
  refine ⟨rfl, ?_⟩
  exact C7_writeChunk_propagates_error_and_leaves_handle_unchanged
    ⟨⟨"abc", 11, 5, [], []⟩⟩ 3 [1, 2]
    ⟨[("abc", ObjData.bytes [104, 101, 108, 108, 111])], [], []⟩
    Err.offsetConflict rfl

/-- The value part of `ossService.GetObjectSize` does not depend on the
access log component of the bucket state. -/
theorem getObjectSize_fst_log (objects : List (String × ObjData))
    (failing log log' : List String) (k : String) :
    (ossService.GetObjectSize ⟨objects, failing, log⟩ k).1
      = (ossService.GetObjectSize ⟨objects, failing, log'⟩ k).1 := by
  unfold ossService.GetObjectSize Bucket.GetObjectDetailedMeta
  by_cases hf : k ∈ failing
  · simp [hf]
  · cases hd : objects.lookup k <;> simp [hf, hd]

/-- When `ossService.GetObjectSize` reports an error it reports size 0. -/
theorem getObjectSize_err_zero (s : BucketState) (k : String) (e : Err)
    (h : (ossService.GetObjectSize s k).1.2 = some e) :
    (ossService.GetObjectSize s k).1 = (0, some e) := by
  unfold ossService.GetObjectSize at h ⊢
  rcases hm : Bucket.GetObjectDetailedMeta s k with ⟨r, s'⟩
  rw [hm] at h
  cases r <;> simp_all

/-- C3: creating an upload from metadata carrying a `filehash` identity and
resuming the derived id (with the data object absent, i.e. nothing appended
yet) succeeds and yields a handle reporting offset 0 and exactly the
metadata attributes supplied at creation. -/
theorem C3_create_then_resume_zero_offset_same_metadata
    (info : FileInfo) (fh : String)
    (objects : List (String × ObjData)) (failing log : List String)
    (hfh : info.getMeta "filehash" = some fh)
    (hnf : (fh ++ ".info") ∉ failing)
    (hnd : objects.lookup fh = none) :
    ((OSSStore.NewUpload info ⟨objects, failing, log⟩).1.isOk = true) ∧
    ((OSSStore.GetUpload fh
        (OSSStore.NewUpload info ⟨objects, failing, log⟩).2).1.map
      (fun u => (u.info.offset, u.info.metaData)) = .ok (0, info.metaData)) := by
  by_cases hf : fh ∈ failing <;>
    constructor <;>
    simp [OSSStore.NewUpload, OSSStore.GetUpload, ossService.WriteObject,
      ossService.ReadObject, ossService.GetObjectSize, Bucket.PutObject,
      Bucket.GetObject, Bucket.GetObjectDetailedMeta, OSSStore.infoPath,
      OSSStore.binPath, List.lookup, Except.isOk, Except.toBool, Except.map,
      hfh, hnf, hnd, hf, id_beq_id_append_info]

/-- C3 witness: metadata `{filehash: "abc"}` against an empty bucket. -/
theorem C3_witness :
    (FileInfo.getMeta ⟨"", 11, 0, [("filehash", "abc")], []⟩ "filehash"
      = some "abc") ∧
    (("abc" ++ ".info") ∉ ([] : List String)) ∧
    (List.lookup "abc" ([] : List (String × ObjData)) = none) ∧
    ((OSSStore.NewUpload ⟨"", 11, 0, [("filehash", "abc")], []⟩
        ⟨[], [], []⟩).1.isOk = true) ∧
    ((OSSStore.GetUpload "abc"
        (OSSStore.NewUpload ⟨"", 11, 0, [("filehash", "abc")], []⟩
          ⟨[], [], []⟩).2).1.map
      (fun u => (u.info.offset, u.info.metaData))
      = .ok (0, [("filehash", "abc")])) := by
  refine ⟨rfl, by simp, rfl, ?_⟩
  exact C3_create_then_resume_zero_offset_same_metadata
    ⟨"", 11, 0, [("filehash", "abc")], []⟩ "abc" [] [] [] rfl (by simp) rfl

/-- C5: a successful resume reports as offset exactly the backend-measured
size of the data object — the spec's `measuredOffset(id) = Size(dataKey) or
0`, which is 0 when the data object does not exist — regardless of the
offset stored in the metadata snapshot (`fi.offset` is arbitrary). -/
theorem C5_resume_offset_is_backend_measured_size
    (id : String) (fi : FileInfo)
    (objects : List (String × ObjData)) (failing log : List String)
    (hinfo : objects.lookup (OSSStore.infoPath id) = some (.infoJson fi))
    (hnf : OSSStore.infoPath id ∉ failing)
    (hnd : OSSStore.binPath id ∉ failing) :
    (OSSStore.GetUpload id ⟨objects, failing, log⟩).1
      = .ok ⟨{ fi with
          offset := specMeasuredOffset ⟨objects, failing, log⟩ id }⟩ := by
  cases hd : objects.lookup (OSSStore.binPath id) <;>
    simp [OSSStore.GetUpload, ossService.ReadObject, ossService.GetObjectSize,
      Bucket.GetObject, Bucket.GetObjectDetailedMeta, specMeasuredOffset,
      hinfo, hnf, hnd, hd]

/-- C5 witness: snapshot claims offset 999 but the 7-byte data object
makes resume report 7. -/
theorem C5_witness :
    (List.lookup (OSSStore.infoPath "abc")
        [("abc.info", ObjData.infoJson ⟨"abc", 11, 999, [], []⟩),
         ("abc", ObjData.bytes [1, 2, 3, 4, 5, 6, 7])]
      = some (.infoJson ⟨"abc", 11, 999, [], []⟩)) ∧
    (OSSStore.infoPath "abc" ∉ ([] : List String)) ∧
    (OSSStore.binPath "abc" ∉ ([] : List String)) ∧
    ((OSSStore.GetUpload "abc"
        ⟨[("abc.info", ObjData.infoJson ⟨"abc", 11, 999, [], []⟩),
          ("abc", ObjData.bytes [1, 2, 3, 4, 5, 6, 7])], [], []⟩).1
      = .ok ⟨{ (⟨"abc", 11, 999, [], []⟩ : FileInfo) with
          offset := specMeasuredOffset
            ⟨[("abc.info", ObjData.infoJson ⟨"abc", 11, 999, [], []⟩),
              ("abc", ObjData.bytes [1, 2, 3, 4, 5, 6, 7])], [], []⟩ "abc" }⟩) ∧
    (specMeasuredOffset
        ⟨[("abc.info", ObjData.infoJson ⟨"abc", 11, 999, [], []⟩),
          ("abc", ObjData.bytes [1, 2, 3, 4, 5, 6, 7])], [], []⟩ "abc" = 7) := by
  refine ⟨rfl, by simp, by simp, ?_, rfl⟩
  exact C5_resume_offset_is_backend_measured_size "abc" ⟨"abc", 11, 999, [], []⟩
    _ [] [] rfl (by simp) (by simp)

/-- C10: `GetUpload` discards every error of the size query on the data
object — not only not-found — and returns a successful handle with offset 0
rather than surfacing the failure. -/
theorem C10_resume_swallows_every_size_query_error
    (id : String) (fi : FileInfo) (e : Err)
    (objects : List (String × ObjData)) (failing log : List String)
    (hinfo : objects.lookup (OSSStore.infoPath id) = some (.infoJson fi))
    (hnf : OSSStore.infoPath id ∉ failing)
    (herr : (ossService.GetObjectSize ⟨objects, failing, log⟩
        (OSSStore.binPath id)).1.2 = some e) :
    (OSSStore.GetUpload id ⟨objects, failing, log⟩).1
      = .ok ⟨{ fi with offset := 0 }⟩ := by
  have h1 : (ossService.GetObjectSize
      ⟨objects, failing, OSSStore.infoPath id :: log⟩
      (OSSStore.binPath id)).1 = (0, some e) := by
    rw [getObjectSize_fst_log objects failing _ log]
    exact getObjectSize_err_zero _ _ _ herr
  simp only [OSSStore.GetUpload, ossService.ReadObject, Bucket.GetObject]
  simp only [hnf, if_false, hinfo, ite_false, decide_not]
  rcases hs : ossService.GetObjectSize
      ⟨objects, failing, OSSStore.infoPath id :: log⟩
      (OSSStore.binPath id) with ⟨⟨off, er⟩, s₂⟩
  rw [hs] at h1
  simp only [Prod.mk.injEq] at h1
  simp [hnf, hinfo, hs, h1.1]

/-- C10 witness: the data object's key suffers a backend transport failure
(not a not-found), yet resume succeeds with offset 0. -/
theorem C10_witness :
    (List.lookup (OSSStore.infoPath "abc")
        [("abc.info", ObjData.infoJson ⟨"abc", 11, 999, [], []⟩)]
      = some (.infoJson ⟨"abc", 11, 999, [], []⟩)) ∧
    (OSSStore.infoPath "abc" ∉ (["abc"] : List String)) ∧
    ((ossService.GetObjectSize
        ⟨[("abc.info", ObjData.infoJson ⟨"abc", 11, 999, [], []⟩)],
         ["abc"], []⟩ (OSSStore.binPath "abc")).1.2 = some Err.transport) ∧
    ((OSSStore.GetUpload "abc"
        ⟨[("abc.info", ObjData.infoJson ⟨"abc", 11, 999, [], []⟩)],
         ["abc"], []⟩).1
      = .ok ⟨{ (⟨"abc", 11, 999, [], []⟩ : FileInfo) with offset := 0 }⟩) := by
  refine ⟨rfl, by decide, rfl, ?_⟩
  exact C10_resume_swallows_every_size_query_error "abc"
    ⟨"abc", 11, 999, [], []⟩ Err.transport _ ["abc"] [] rfl (by decide) rfl

/-- C8: `Terminate` issues one delete call naming exactly the metadata key
and the data key (in that order, as recorded by the access log of a run
started with an empty log); after a successful `Terminate`, resuming the
same id fails with `notFound`; and on delete failure the backend's error is
returned unmodified while the stored objects are untouched (the upload
remains live). -/
theorem C8_terminate_deletes_both_keys_resume_notFound_or_propagates_error
    (u : ossUpload) (objects : List (String × ObjData))
    (failing log : List String) :
    ((ossUpload.Terminate u ⟨objects, failing, []⟩).2.log
      = [OSSStore.infoPath u.info.id, OSSStore.binPath u.info.id]) ∧
    (∀ s', ossUpload.Terminate u ⟨objects, failing, log⟩ = (none, s') →
      (OSSStore.GetUpload u.info.id s').1 = .error .notFound) ∧
    ((ossUpload.Terminate u ⟨objects, failing, log⟩).1
      = (ossService.DeleteObject ⟨objects, failing, log⟩
          [OSSStore.infoPath u.info.id, OSSStore.binPath u.info.id]).1) ∧
    (∀ e, (ossUpload.Terminate u ⟨objects, failing, log⟩).1 = some e →
      (ossUpload.Terminate u ⟨objects, failing, log⟩).2.objects = objects) := by
  refine ⟨?_, ?_, ?_, ?_⟩
  · by_cases h1 : OSSStore.infoPath u.info.id ∈ failing <;>
      by_cases h2 : OSSStore.binPath u.info.id ∈ failing <;>
      simp [ossUpload.Terminate, ossService.DeleteObject, Bucket.DeleteObjects,
        h1, h2]
  · intro s' ht
    simp only [ossUpload.Terminate, ossService.DeleteObject,
      Bucket.DeleteObjects] at ht
    by_cases h1 : OSSStore.infoPath u.info.id ∈ failing
    · simp [h1] at ht
    · by_cases h2 : OSSStore.binPath u.info.id ∈ failing
      · simp [h1, h2] at ht
      · simp [h1, h2, Prod.mk.injEq] at ht
        subst ht
        exact getUpload_fst_notFound _ _ h1
          (lookup_filter_none _ _ _ (fun d => by simp))
  · unfold ossUpload.Terminate
    rcases hd : ossService.DeleteObject ⟨objects, failing, log⟩
        [OSSStore.infoPath u.info.id, OSSStore.binPath u.info.id] with ⟨r, s₂⟩
    cases r <;> simp [hd]
  · intro e ht
    by_cases h1 : OSSStore.infoPath u.info.id ∈ failing <;>
      by_cases h2 : OSSStore.binPath u.info.id ∈ failing <;>
      simp [ossUpload.Terminate, ossService.DeleteObject, Bucket.DeleteObjects,
        h1, h2] at ht ⊢

/-- C8 witness: deleting the two objects of upload "abc" succeeds and the
subsequent resume fails with `notFound`; with the data key failing, the
transport error is propagated and the objects are untouched. -/
theorem C8_witness :
    (ossUpload.Terminate ⟨⟨"abc", 11, 5, [], []⟩⟩
        ⟨[("abc.info", ObjData.infoJson ⟨"abc", 11, 5, [], []⟩),
          ("abc", ObjData.bytes [1, 2, 3, 4, 5])], [], []⟩
      = (none, ⟨[], [], ["abc.info", "abc"]⟩)) ∧
    ((OSSStore.GetUpload "abc" ⟨[], [], ["abc.info", "abc"]⟩).1
      = .error .notFound) ∧
    ((ossUpload.Terminate ⟨⟨"abc", 11, 5, [], []⟩⟩
        ⟨[("abc.info", ObjData.infoJson ⟨"abc", 11, 5, [], []⟩),
          ("abc", ObjData.bytes [1, 2, 3, 4, 5])], ["abc"], []⟩).1
      = some Err.transport) ∧
    ((ossUpload.Terminate ⟨⟨"abc", 11, 5, [], []⟩⟩
        ⟨[("abc.info", ObjData.infoJson ⟨"abc", 11, 5, [], []⟩),
          ("abc", ObjData.bytes [1, 2, 3, 4, 5])], ["abc"], []⟩).2.objects
      = [("abc.info", ObjData.infoJson ⟨"abc", 11, 5, [], []⟩),
         ("abc", ObjData.bytes [1, 2, 3, 4, 5])]) := by
  refine ⟨rfl, ?_, rfl, ?_⟩
  · exact (C8_terminate_deletes_both_keys_resume_notFound_or_propagates_error
      ⟨⟨"abc", 11, 5, [], []⟩⟩
      [("abc.info", ObjData.infoJson ⟨"abc", 11, 5, [], []⟩),
       ("abc", ObjData.bytes [1, 2, 3, 4, 5])] [] []).2.1
      ⟨[], [], ["abc.info", "abc"]⟩ rfl
  · exact (C8_terminate_deletes_both_keys_resume_notFound_or_propagates_error
      ⟨⟨"abc", 11, 5, [], []⟩⟩
      [("abc.info", ObjData.infoJson ⟨"abc", 11, 5, [], []⟩),
       ("abc", ObjData.bytes [1, 2, 3, 4, 5])] ["abc"] []).2.2.2
      Err.transport rfl

/-- Every branch of the backend append logs exactly the addressed key. -/
theorem bucket_appendObject_log (s : BucketState) (k : String) (r : List Nat)
    (off : Int) (opts : List String) :
    (Bucket.AppendObject s k r off opts).2.log = k :: s.log := by
  unfold Bucket.AppendObject
  by_cases hf : k ∈ s.failing
  · simp [hf]
  · rcases hl : s.objects.lookup k with _ | d
    · by_cases ho : off = 0 <;> simp [hf, hl, ho]
    · cases d with
      | bytes bs => by_cases ho : off = (bs.length : Int) <;> simp [hf, hl, ho]
      | infoJson fi => simp [hf, hl]

/-- `WriteChunk` touches the bucket only through the one append call on the
data key: the log grows by exactly that key. -/
theorem writeChunk_snd_log (u : ossUpload) (off : Int) (src : List Nat)
    (s : BucketState) :
    (ossUpload.WriteChunk u off src s).2.2.log
      = OSSStore.binPath u.info.id :: s.log := by
  have hb := bucket_appendObject_log s (OSSStore.binPath u.info.id) src off
    [ossUpload.contentDisposition u]
  unfold ossUpload.WriteChunk ossUpload.WriteChunkBody ossService.AppendObject
  rcases hc : Bucket.AppendObject s (OSSStore.binPath u.info.id) src off
      [ossUpload.contentDisposition u] with ⟨⟨n, err⟩, s'⟩
  rw [hc] at hb
  simp only [hc]
  cases err <;> simpa using hb

/-- C6: key derivation and framing: the data key is the id itself, the
metadata key is the id plus ".info", and every storage key addressed by the
adapter operations (as recorded in the access log of a run started with an
empty log) is one of these two keys derived from the operation's upload
id. -/
theorem C6_every_operation_addresses_only_the_two_derived_keys
    (id : String) (objects : List (String × ObjData)) (failing : List String) :
    (OSSStore.binPath id = id ∧ OSSStore.infoPath id = id ++ ".info") ∧
    (∀ info : FileInfo,
      (OSSStore.NewUpload info ⟨objects, failing, []⟩).2.log ⊆
        [OSSStore.binPath ((info.getMeta "filehash").getD ""),
         OSSStore.infoPath ((info.getMeta "filehash").getD "")]) ∧
    ((OSSStore.GetUpload id ⟨objects, failing, []⟩).2.log ⊆
        [OSSStore.binPath id, OSSStore.infoPath id]) ∧
    (∀ (u : ossUpload) (off : Int) (src : List Nat),
      (ossUpload.WriteChunk u off src ⟨objects, failing, []⟩).2.2.log ⊆
        [OSSStore.binPath u.info.id, OSSStore.infoPath u.info.id]) ∧
    (∀ u : ossUpload,
      (ossUpload.GetReader u ⟨objects, failing, []⟩).2.log ⊆
        [OSSStore.binPath u.info.id, OSSStore.infoPath u.info.id]) ∧
    (∀ u : ossUpload,
      (ossUpload.Terminate u ⟨objects, failing, []⟩).2.log ⊆
        [OSSStore.binPath u.info.id, OSSStore.infoPath u.info.id]) := by
  refine ⟨⟨rfl, rfl⟩, ?_, ?_, ?_, ?_, ?_⟩
  · intro info
    rcases hm : info.getMeta "filehash" with _ | fh
    · simp [OSSStore.NewUpload, hm]
    · by_cases hf : OSSStore.infoPath fh ∈ failing <;>
        simp [OSSStore.NewUpload, ossService.WriteObject, Bucket.PutObject,
          hm, hf]
  · by_cases hfI : OSSStore.infoPath id ∈ failing
    · simp [OSSStore.GetUpload, ossService.ReadObject, Bucket.GetObject, hfI]
    · rcases hl : objects.lookup (OSSStore.infoPath id) with _ | d
      · simp [OSSStore.GetUpload, ossService.ReadObject, Bucket.GetObject,
          hfI, hl]
      · cases d with
        | bytes bs =>
            simp [OSSStore.GetUpload, ossService.ReadObject, Bucket.GetObject,
              hfI, hl]
        | infoJson fi =>
            by_cases hfB : OSSStore.binPath id ∈ failing
            · simp [OSSStore.GetUpload, ossService.ReadObject,
                ossService.GetObjectSize, Bucket.GetObject,
                Bucket.GetObjectDetailedMeta, hfI, hl, hfB]
            · cases hd : objects.lookup (OSSStore.binPath id) <;>
                simp [OSSStore.GetUpload, ossService.ReadObject,
                  ossService.GetObjectSize, Bucket.GetObject,
                  Bucket.GetObjectDetailedMeta, hfI, hl, hfB, hd]
  · intro u off src
    rw [writeChunk_snd_log]
    simp
  · intro u
    by_cases hfB : OSSStore.binPath u.info.id ∈ failing
    · simp [ossUpload.GetReader, ossService.ReadObject, Bucket.GetObject, hfB]
    · cases hd : objects.lookup (OSSStore.binPath u.info.id) <;>
        simp [ossUpload.GetReader, ossService.ReadObject, Bucket.GetObject,
          hfB, hd]
  · intro u
    by_cases h1 : OSSStore.infoPath u.info.id ∈ failing <;>
      by_cases h2 : OSSStore.binPath u.info.id ∈ failing <;>
      simp [ossUpload.Terminate, ossService.DeleteObject, Bucket.DeleteObjects,
        h1, h2]

/-- C9: the capability stubs `ConcatUploads`, `DeclareLength` and
`FinishUpload` return nil for every input and return the bucket state (in
particular its access log) unchanged: no storage-port call is made and no
adapter state is touched. -/
theorem C9_capability_stubs_succeed_and_change_nothing
    (u : ossUpload) (uploads : List ossUpload) (l : Int) (s : BucketState) :
    ossUpload.ConcatUploads u uploads s = (none, s) ∧
    ossUpload.DeclareLength u l s = (none, s) ∧
    ossUpload.FinishUpload u s = (none, s) :=
  ⟨rfl, rfl, rfl⟩

end OSSSpec
